import Mathlib

/-!
Shallow embedding of the reproca client (src/reproca.ts and the four hook
variants in src/reproca_client/src/forReact/signalHooks.ts and
src/unnamed/part_001), together with theorems checking the repository's
specification against it.

Part 1 embeds `Reproca.call_method`: raw transport outcomes, the response
object, and the classification into `ReprocaMethodResponse`.
Part 2 embeds the reactive hooks (`useMethodSignal` / `useMethod`) as an
event machine over an explicit binding state, with the JavaScript event
loop's promise resolutions and timers as events.
-/

namespace Reproca

/-- Runtime error values occurring in the source: the `TypeError` thrown by
`fetch` on a network-level failure, the three `Reproca*Error` classes from
src/reproca.ts lines 1-3, and the decode error rejected by `response.json()`
on a malformed body (a `SyntaxError` in JavaScript). -/
inductive JsErrorVal where
  | typeError (msg : String)
  | reprocaProtocolError
  | reprocaUnauthorizedError
  | reprocaServerError
  | jsonDecodeError
deriving DecidableEq, Repr

/-- Models the JavaScript test `e instanceof TypeError` on line 35. -/
def JsErrorVal.isTypeError : JsErrorVal → Bool
  | .typeError _ => true
  | _ => false

/-- The runtime object returned by `call_method`, with both fields of the
`ReprocaMethodResponse` union kept explicit: a plain object that may carry
an `ok` field, an `err` field, both, or neither. The source type promises
exactly one is present; theorems below check the constructed objects. -/
structure MethodResultObj (T : Type) where
  ok : Option T
  err : Option JsErrorVal
deriving DecidableEq, Repr

/-- A raw transport outcome of the single `fetch` call inside `call_method`:
either the awaited `fetch` promise rejects with an error value, or an HTTP
response with a status code and a raw body string is obtained. -/
inductive RawOutcome where
  | fetchThrows (e : JsErrorVal)
  | response (status : Nat) (body : String)
deriving DecidableEq, Repr

/-- Outcome of one `call_method` invocation: the returned promise either
resolves with a `MethodResultObj` or rejects with an uncaught error. -/
inductive CallResult (T : Type) where
  | returned (r : MethodResultObj T)
  | raised (e : JsErrorVal)
deriving DecidableEq, Repr

/-- Models `Response.ok` of the Fetch API: status in the range [200, 300). -/
def responseOk (status : Nat) : Bool :=
  decide (200 ≤ status) && decide (status < 300)

/-- Embedding of `Reproca.call_method` (src/reproca.ts lines 21-50), given a
decoder modelling `response.json()` (`none` when the body is not valid JSON,
in which case the awaited `json()` promise rejects and the rejection escapes
the function, which has no handler there). Control flow as in the source:
the try/catch around `fetch` returns `{ err: e }` for a `TypeError` and
re-throws anything else; then `response.ok` is tested first, then status
400, then 401, then the catch-all. -/
def call_method (decode : String → Option T) : RawOutcome → CallResult T
  | .fetchThrows e =>
      if e.isTypeError then .returned ⟨none, some e⟩ else .raised e
  | .response status body =>
      if responseOk status then
        match decode body with
        | some v => .returned ⟨some v, none⟩
        | none => .raised .jsonDecodeError
      else if status = 400 then .returned ⟨none, some .reprocaProtocolError⟩
      else if status = 401 then .returned ⟨none, some .reprocaUnauthorizedError⟩
      else .returned ⟨none, some .reprocaServerError⟩

/-- Modelled from the spec: the classification table of spec sections 4.2
and 8, with the checks applied in the order the claim lists them
(first match wins): network-level failure, then status 400, then 401, then
any other non-2xx status, then a 2xx status with a decodable body. Used
only to be compared against `call_method`. -/
def classify_specTable (decode : String → Option T) : RawOutcome → CallResult T
  | .fetchThrows e =>
      if e.isTypeError then .returned ⟨none, some e⟩ else .raised e
  | .response status body =>
      if status = 400 then .returned ⟨none, some .reprocaProtocolError⟩
      else if status = 401 then .returned ⟨none, some .reprocaUnauthorizedError⟩
      else if ¬ (200 ≤ status ∧ status < 300) then
        .returned ⟨none, some .reprocaServerError⟩
      else
        match decode body with
        | some v => .returned ⟨some v, none⟩
        | none => .raised .jsonDecodeError

/-- The request object passed to `fetch` on src/reproca.ts lines 27-33. -/
structure FetchRequest where
  url : String
  httpMethod : String
  contentType : String
  body : String
deriving DecidableEq, Repr

/-- The single request `call_method` constructs: `fetch(this.host + path,
{method: "POST", headers: {"Content-Type": "application/json"}, body:
JSON.stringify(params)})`, with `stringify` modelling `JSON.stringify`. -/
def call_method_request (host path : String) (stringify : P → String)
    (params : P) : FetchRequest :=
  { url := host ++ path
    httpMethod := "POST"
    contentType := "application/json"
    body := stringify params }

/-- Whole-invocation embedding of `call_method`: the list of network
exchanges it performs (in order) paired with its result, the transport
being an oracle from requests to raw outcomes. The source contains exactly
one `fetch` call on this path, so the trace is a singleton. -/
def call_method_full (host path : String) (stringify : P → String)
    (decode : String → Option T) (transport : FetchRequest → RawOutcome)
    (params : P) : List FetchRequest × CallResult T :=
  let req := call_method_request host path stringify params
  ([req], call_method decode (transport req))

end Reproca

namespace Hooks

open Reproca

/-- A pending `setTimeout` timer: its id and the instant it fires. In the
hooks every timer's callback is the cycle's own `fetch` closure. -/
structure Timer where
  id : Nat
  fireAt : Nat
deriving DecidableEq, Repr

/-- Observable state of one hook binding together with the surrounding
JavaScript runtime facts the claims are about: the published result cell
(signal value / useState value), the pending timers, the number of
unresolved `method()` promises, the cleanup value the framework stored from
the last effect run (a list of timer ids that running it would clear),
whether the owning scope is mounted, and an invocation log. -/
structure HookState (T : Type) where
  published : Option (MethodResultObj T)
  timers : List Timer
  inFlight : Nat
  cleanup : Option (List Nat)
  mounted : Bool
  invocations : Nat
  invocationTimes : List Nat
  nextId : Nat
  now : Nat
deriving DecidableEq, Repr

/-- State before the hook first runs: `useSignal(undefined)` /
`useState(undefined)`. -/
def initState (T : Type) : HookState T :=
  { published := none, timers := [], inFlight := 0, cleanup := none
    mounted := false, invocations := 0, invocationTimes := [], nextId := 0
    now := 0 }

/-- Writing a preact signal: `state.value = value`. -/
def signalWrite (s : HookState T) (value : MethodResultObj T) : HookState T :=
  { s with published := some value }

/-- Calling a `useState` setter: `setState(value)`. -/
def setStateCall (s : HookState T) (value : MethodResultObj T) : HookState T :=
  { s with published := some value }

/-- JavaScript truthiness of the `reload` option (a `number | undefined`):
`undefined` and `0` are falsy. -/
def reloadTruthy : Option Nat → Bool
  | none => false
  | some r => r ≠ 0

/-- Models `const id = setTimeout(fetch, reload)`: appends a fresh timer due
`reload` from now and also yields its id. -/
def setTimeoutFetch (s : HookState T) (reload : Nat) : HookState T × Nat :=
  ({ s with
      timers := s.timers ++ [⟨s.nextId, s.now + reload⟩]
      nextId := s.nextId + 1 }, s.nextId)

/-- The `.then` continuation of `useMethodSignal` in
src/reproca_client/src/forReact/signalHooks.ts lines 12-19: write the
signal, then `if (reload && value.err)` schedule `setTimeout(fetch,
reload)` and return the closure `() => clearTimeout(id)`; otherwise return
`undefined`. The second component is that returned closure, identified by
the timer ids it would clear; it becomes the promise's value only. -/
def forReact_useMethodSignal_onResolve (reload : Option Nat)
    (value : MethodResultObj T) (s : HookState T) :
    HookState T × Option (List Nat) :=
  let s := signalWrite s value
  if reloadTruthy reload && value.err.isSome then
    match reload with
    | some r =>
        let (s, id) := setTimeoutFetch s r
        (s, some [id])
    | none => (s, none)
  else (s, none)

/-- The `.then` continuation of `useMethod` in
src/reproca_client/src/forReact/signalHooks.ts lines 35-42: identical to
the signal variant except the state write is `setState(value)`. -/
def forReact_useMethod_onResolve (reload : Option Nat)
    (value : MethodResultObj T) (s : HookState T) :
    HookState T × Option (List Nat) :=
  let s := setStateCall s value
  if reloadTruthy reload && value.err.isSome then
    match reload with
    | some r =>
        let (s, id) := setTimeoutFetch s r
        (s, some [id])
    | none => (s, none)
  else (s, none)

/-- The `.then` continuation of `useMethodSignal` in src/unnamed/part_001
lines 12-19 (the preact hooks file): writes the signal. -/
def preact_useMethodSignal_onResolve (reload : Option Nat)
    (value : MethodResultObj T) (s : HookState T) :
    HookState T × Option (List Nat) :=
  let s := signalWrite s value
  if reloadTruthy reload && value.err.isSome then
    match reload with
    | some r =>
        let (s, id) := setTimeoutFetch s r
        (s, some [id])
    | none => (s, none)
  else (s, none)

/-- The `.then` continuation of `useMethod` in src/unnamed/part_001 lines
35-42 (the preact hooks file): calls the `useState` setter. -/
def preact_useMethod_onResolve (reload : Option Nat)
    (value : MethodResultObj T) (s : HookState T) :
    HookState T × Option (List Nat) :=
  let s := setStateCall s value
  if reloadTruthy reload && value.err.isSome then
    match reload with
    | some r =>
        let (s, id) := setTimeoutFetch s r
        (s, some [id])
    | none => (s, none)
  else (s, none)

/-- Running the hook's inner `fetch` closure (lines 11-20): call `method()`
(one more promise in flight, one more invocation, logged at the current
instant) and fall off the end of the function body, so the value handed
back to the caller is `undefined`. The `clearTimeout` closure produced
later inside the `.then` callback is not this return value. -/
def fetch_run (s : HookState T) : HookState T × Option (List Nat) :=
  ({ s with
      inFlight := s.inFlight + 1
      invocations := s.invocations + 1
      invocationTimes := s.invocationTimes ++ [s.now] }, none)

/-- The framework runs the cleanup stored from the previous effect run:
for a stored closure, each listed timer id is cleared via `clearTimeout`;
for `undefined`, nothing happens. -/
def runStoredCleanup (s : HookState T) : HookState T :=
  match s.cleanup with
  | none => s
  | some ids =>
      { s with
          timers := s.timers.filter (fun t => decide (t.id ∉ ids))
          cleanup := none }

/-- Effect run on mount or after a dependency change: `useEffect(fetch,
deps)` calls `fetch` and stores whatever it returns as the cleanup. -/
def effectRun (s : HookState T) : HookState T :=
  let (s, ret) := fetch_run s
  { s with cleanup := ret, mounted := true }

/-- Events delivered to one binding by the JavaScript runtime: the scope
mounts, the oldest in-flight `method()` promise resolves with a value, a
pending timer fires (its callback is `fetch`), the dependency list changes
while mounted, or the scope unmounts. -/
inductive HookEvent (T : Type) where
  | mount
  | resolve (value : MethodResultObj T)
  | timerFire (id : Nat)
  | depsChange
  | unmount
deriving DecidableEq, Repr

/-- One step of the binding under an event, translated from the source and
the React/preact effect contract: mount runs the effect; a promise
resolution runs the `.then` callback and discards the value it returns,
whether or not the scope is still mounted; a pending timer fires at its due
instant and runs `fetch`; a dependency change runs the stored cleanup and
then the effect again; unmount runs the stored cleanup. -/
def hookStep (reload : Option Nat) (s : HookState T) :
    HookEvent T → HookState T
  | .mount => if s.mounted then s else effectRun s
  | .resolve value =>
      if s.inFlight = 0 then s
      else
        (forReact_useMethodSignal_onResolve reload value
          { s with inFlight := s.inFlight - 1 }).1
  | .timerFire id =>
      match s.timers.find? (fun t => t.id = id) with
      | some t =>
          (fetch_run
            { s with
                timers := s.timers.filter (fun u => decide (u.id ≠ id))
                now := max s.now t.fireAt }).1
      | none => s
  | .depsChange =>
      if s.mounted then effectRun (runStoredCleanup s) else s
  | .unmount =>
      if s.mounted then { runStoredCleanup s with mounted := false } else s

/-- A whole trace of events, folded through `hookStep`. -/
def runEvents (reload : Option Nat) (s : HookState T)
    (events : List (HookEvent T)) : HookState T :=
  events.foldl (hookStep reload) s

/-- On the automatic path, after a resolution the sole pending retry timer
(when there is one) is the next event to occur: it fires. -/
def runAutoStep (reload : Option Nat) (s : HookState T) : HookState T :=
  match s.timers with
  | [t] => hookStep reload s (.timerFire t.id)
  | _ => s

/-- The automatic (non-manual) path of one binding cycle driven by a script
of producer results: each pending invocation resolves with the next result
and, when that leaves a single pending retry timer, the timer fires. -/
def runAuto (reload : Option Nat) (s : HookState T) :
    List (MethodResultObj T) → HookState T
  | [] => s
  | value :: rest =>
      runAuto reload (runAutoStep reload (hookStep reload s (.resolve value)))
        rest

/-- A binding-cycle state on the automatic path between settlements: no
pending timer, exactly one invocation in flight, scope mounted, effect
cleanup `undefined`. -/
def cycleState (T : Type) (pub : Option (MethodResultObj T)) (inv : Nat)
    (times : List Nat) (nid t : Nat) : HookState T :=
  ⟨pub, [], 1, none, true, inv, times, nid, t⟩

/-- The instants `t + R, t + 2R, ...` (`n` of them) at which the successive
retry timers of a cycle whose previous invocation ran at instant `t` fire. -/
def retrySchedule (t R : Nat) : Nat → List Nat
  | 0 => []
  | n + 1 => (t + R) :: retrySchedule (t + R) R n

/-- A producer result carrying only an error, as resolved by `method()`. -/
def errResult (T : Type) (e : JsErrorVal) : MethodResultObj T := ⟨none, some e⟩

/-- A producer result carrying only a success value. -/
def okResult (v : T) : MethodResultObj T := ⟨some v, none⟩

end Hooks

open Reproca Hooks

/-- C1: `call_method` classifies every raw transport outcome exactly as the
spec's table, and the table's first-match-wins ordering (network failure,
status 400, status 401, any other non-2xx, 2xx with decodable body) yields
the same classification as the source's control flow. -/
theorem call_method_matches_spec_table (T : Type) (decode : String → Option T)
    (o : RawOutcome) : call_method decode o = classify_specTable decode o := by
  cases o with
  | fetchThrows e => rfl
  | response status body =>
      by_cases hok : 200 ≤ status ∧ status < 300
      · have hro : responseOk status = true := by
          simp only [responseOk, Bool.and_eq_true, decide_eq_true_eq]; omega
        have h400 : status ≠ 400 := by omega
        have h401 : status ≠ 401 := by omega
        simp [call_method, classify_specTable, hro, h400, h401, hok.1, hok.2]
      · have hro : responseOk status = false := by
          simp only [responseOk, Bool.and_eq_false_iff, decide_eq_false_iff_not]
          omega
        simp [call_method, classify_specTable, hro, hok]

/-- C3: on each of the five outcome kinds (a `TypeError` from `fetch`, a
2xx status with decodable body, status 400, status 401, any other non-2xx
status) `call_method` returns a result object, and that object carries
exactly one of the `ok` / `err` fields, never both and never neither. -/
theorem call_method_total_exactly_one (T : Type) (decode : String → Option T)
    (o : RawOutcome)
    (hfive : (∃ m, o = .fetchThrows (.typeError m)) ∨
      (∃ s b, o = .response s b ∧ (200 ≤ s ∧ s < 300 → (decode b).isSome))) :
    ∃ r, call_method decode o = .returned r ∧
      ((r.ok.isSome ∧ r.err = none) ∨ (r.ok = none ∧ r.err.isSome)) := by
  rcases hfive with ⟨m, rfl⟩ | ⟨status, body, rfl, hdec⟩
  · exact ⟨⟨none, some (.typeError m)⟩, rfl, Or.inr ⟨rfl, rfl⟩⟩
  · by_cases hok : 200 ≤ status ∧ status < 300
    · have hro : responseOk status = true := by
        simp only [responseOk, Bool.and_eq_true, decide_eq_true_eq]; omega
      rcases hv : decode body with _ | v
      · rw [hv] at hdec
        exact absurd (hdec hok) (by simp)
      · exact ⟨⟨some v, none⟩, by simp [call_method, hro, hv], Or.inl ⟨rfl, rfl⟩⟩
    · have hro : responseOk status = false := by
        simp only [responseOk, Bool.and_eq_false_iff, decide_eq_false_iff_not]
        omega
      by_cases h400 : status = 400
      · subst h400
        exact ⟨⟨none, some .reprocaProtocolError⟩,
          by simp [call_method, responseOk], Or.inr ⟨rfl, rfl⟩⟩
      · by_cases h401 : status = 401
        · subst h401
          exact ⟨⟨none, some .reprocaUnauthorizedError⟩,
            by simp [call_method, responseOk], Or.inr ⟨rfl, rfl⟩⟩
        · exact ⟨⟨none, some .reprocaServerError⟩,
            by simp [call_method, hro, h400, h401], Or.inr ⟨rfl, rfl⟩⟩

/-- Witness for C3 at the concrete outcome `status 401`. -/
theorem call_method_total_exactly_one_witness :
    ∃ r, call_method (T := Nat) (fun _ => some 0) (.response 401 "x")
        = .returned r ∧
      ((r.ok.isSome ∧ r.err = none) ∨ (r.ok = none ∧ r.err.isSome)) :=
  call_method_total_exactly_one Nat (fun _ => some 0) (.response 401 "x")
    (Or.inr ⟨401, "x", rfl, fun h => absurd h.2 (by decide)⟩)

/-- C7: an exception raised by the awaited `fetch` is converted to an err
result exactly when it is a `TypeError`; every other exception is re-raised
to the caller unchanged. -/
theorem call_method_exception_policy (T : Type) (decode : String → Option T)
    (e : JsErrorVal) :
    (e.isTypeError = true →
      call_method decode (.fetchThrows e) = .returned ⟨none, some e⟩) ∧
    (e.isTypeError = false →
      call_method decode (.fetchThrows e) = .raised e) := by
  constructor <;> intro h <;> simp [call_method, h]

/-- Witness for C7: a network `TypeError` is converted, any other
exception (here the decode error value) is re-raised unchanged. -/
theorem call_method_exception_policy_witness :
    call_method (T := Nat) (fun _ => none) (.fetchThrows (.typeError "net"))
        = .returned ⟨none, some (.typeError "net")⟩ ∧
    call_method (T := Nat) (fun _ => none) (.fetchThrows .jsonDecodeError)
        = .raised .jsonDecodeError :=
  ⟨(call_method_exception_policy Nat (fun _ => none) (.typeError "net")).1 rfl,
   (call_method_exception_policy Nat (fun _ => none) .jsonDecodeError).2 rfl⟩

/-- C8: `call_method` performs exactly one network exchange, a POST to the
verbatim concatenation `host ++ path` with Content-Type application/json
and body the serialization of `params`; and when the transport answers
with a 2xx status and a decodable body, the decoded value is returned as
the ok result. -/
theorem call_method_single_post_exchange (P T : Type) (host path : String)
    (stringify : P → String) (decode : String → Option T)
    (transport : FetchRequest → RawOutcome) (params : P) :
    (call_method_full host path stringify decode transport params).1
      = [{ url := host ++ path, httpMethod := "POST",
           contentType := "application/json", body := stringify params }] ∧
    ∀ status body v,
      transport (call_method_request host path stringify params)
          = .response status body →
      200 ≤ status → status < 300 → decode body = some v →
      (call_method_full host path stringify decode transport params).2
        = .returned ⟨some v, none⟩ := by
  constructor
  · rfl
  · intro status body v htr h1 h2 hdec
    have hro : responseOk status = true := by
      simp only [responseOk, Bool.and_eq_true, decide_eq_true_eq]; omega
    simp [call_method_full, htr, call_method, hro, hdec]

/-- Witness for C8 at concrete host, path, params and a 200 transport. -/
theorem call_method_single_post_exchange_witness :
    (call_method_full "http://h" "/p" (fun _ : Nat => "ps")
        (fun _ => some (7 : Nat)) (fun _ => .response 200 "body") 3).1
      = [{ url := "http://h" ++ "/p", httpMethod := "POST",
           contentType := "application/json", body := "ps" }] ∧
    (call_method_full "http://h" "/p" (fun _ : Nat => "ps")
        (fun _ => some (7 : Nat)) (fun _ => .response 200 "body") 3).2
      = .returned ⟨some 7, none⟩ :=
  ⟨(call_method_single_post_exchange Nat Nat "http://h" "/p" (fun _ => "ps")
      (fun _ => some 7) (fun _ => .response 200 "body") 3).1,
   (call_method_single_post_exchange Nat Nat "http://h" "/p" (fun _ => "ps")
      (fun _ => some 7) (fun _ => .response 200 "body") 3).2 200 "body" 7 rfl
      (by decide) (by decide) rfl⟩

/-- C10: a 2xx response whose body does not decode yields neither an ok nor
an err result: `call_method` ends in a raised decode error (a rejected
promise), so a malformed body never produces a malformed ok value or a
classified error. -/
theorem call_method_undecodable_2xx_raises (T : Type)
    (decode : String → Option T) (status : Nat) (body : String)
    (h1 : 200 ≤ status) (h2 : status < 300) (hdec : decode body = none) :
    call_method decode (.response status body) = .raised .jsonDecodeError := by
  have hro : responseOk status = true := by
    simp only [responseOk, Bool.and_eq_true, decide_eq_true_eq]; omega
  simp [call_method, hro, hdec]

/-- Witness for C10 at status 200 with an undecodable body. -/
theorem call_method_undecodable_2xx_raises_witness :
    call_method (T := Nat) (fun _ => none) (.response 200 "oops")
      = .raised .jsonDecodeError :=
  call_method_undecodable_2xx_raises Nat (fun _ => none) 200 "oops"
    (by decide) (by decide) rfl

/-- C9: the four hook variants — `useMethodSignal` and `useMethod` from the
React file and from the preact file — perform identical invocation,
state-publication and retry-scheduling steps; they differ only in which
state primitive (`state.value = v` or `setState(v)`) carries out the
publication, and those coincide on the observable binding state. -/
theorem hook_variants_equivalent (T : Type) (reload : Option Nat)
    (value : MethodResultObj T) (s : HookState T) :
    forReact_useMethodSignal_onResolve reload value s
        = forReact_useMethod_onResolve reload value s ∧
    forReact_useMethodSignal_onResolve reload value s
        = preact_useMethodSignal_onResolve reload value s ∧
    forReact_useMethodSignal_onResolve reload value s
        = preact_useMethod_onResolve reload value s :=
  ⟨rfl, rfl, rfl⟩

/-- C2 fails on the code: the inner `fetch` closure returns `undefined` to
`useEffect` (the `clearTimeout` closure is returned from the promise
callback instead and discarded), so after an err resolution schedules a
retry timer, unmounting leaves the timer pending; it then fires, invokes
the producer again, and the eventual resolution is still published. -/
theorem teardown_does_not_clear_pending_timer :
    (runEvents (some 5) (initState Nat)
      [.mount, .resolve (errResult Nat .reprocaServerError)]).timers
        = [⟨0, 5⟩] ∧
    (runEvents (some 5) (initState Nat)
      [.mount, .resolve (errResult Nat .reprocaServerError),
       .unmount]).timers = [⟨0, 5⟩] ∧
    (runEvents (some 5) (initState Nat)
      [.mount, .resolve (errResult Nat .reprocaServerError),
       .unmount]).cleanup = none ∧
    (runEvents (some 5) (initState Nat)
      [.mount, .resolve (errResult Nat .reprocaServerError),
       .unmount, .timerFire 0]).invocations = 2 ∧
    (runEvents (some 5) (initState Nat)
      [.mount, .resolve (errResult Nat .reprocaServerError),
       .unmount, .timerFire 0, .resolve (okResult 42)]).published
        = some (okResult 42) := by
  decide

/-- C5 fails on the code: a dependency change triggers exactly one fresh
invocation, but the previous cycle's retry timer is not cancelled (the
effect cleanup stored by the framework is `undefined`), so it later fires
and causes an extra invocation inside the new cycle. -/
theorem deps_change_does_not_clear_pending_timer :
    (runEvents (some 5) (initState Nat)
      [.mount, .resolve (errResult Nat .reprocaServerError),
       .depsChange]).invocations = 2 ∧
    (runEvents (some 5) (initState Nat)
      [.mount, .resolve (errResult Nat .reprocaServerError),
       .depsChange]).timers = [⟨0, 5⟩] ∧
    (runEvents (some 5) (initState Nat)
      [.mount, .resolve (errResult Nat .reprocaServerError),
       .depsChange, .timerFire 0]).invocations = 3 := by
  decide

/-- C6 counterexample: with an invocation in flight at unmount, its
resolution is not discarded — the value is written to the observable state
of the already-cancelled cycle. -/
theorem inflight_resolution_written_after_teardown :
    (runEvents (some 5) (initState Nat) [.mount, .unmount]).published = none ∧
    (runEvents (some 5) (initState Nat) [.mount, .unmount]).mounted = false ∧
    (runEvents (some 5) (initState Nat)
      [.mount, .unmount, .resolve (okResult 42)]).published
        = some (okResult 42) := by
  decide

/-- Publication is unconditional in the `.then` callback of every variant:
whatever the binding state, the resolved value lands in `published`. -/
theorem onResolve_publishes (T : Type) (reload : Option Nat)
    (value : MethodResultObj T) (s : HookState T) :
    (forReact_useMethodSignal_onResolve reload value s).1.published
      = some value := by
  rcases reload with _ | r
  · simp [forReact_useMethodSignal_onResolve, signalWrite, setTimeoutFetch,
      reloadTruthy]
  · simp only [forReact_useMethodSignal_onResolve, signalWrite, setTimeoutFetch,
      reloadTruthy]
    split_ifs <;> rfl

/-- C6 amended: the resolution of an in-flight invocation is never
discarded — the resolve callback writes it to the observable state
unconditionally, with no liveness check, whether or not the owning scope
is still mounted; a resolution landing after teardown or a dependency
change still overwrites the state (last write wins). -/
theorem resolve_always_publishes (T : Type) (reload : Option Nat)
    (value : MethodResultObj T) (s : HookState T) (h : s.inFlight ≠ 0) :
    (hookStep reload s (.resolve value)).published = some value := by
  have hdef : hookStep reload s (.resolve value)
      = if s.inFlight = 0 then s
        else (forReact_useMethodSignal_onResolve reload value
          { s with inFlight := s.inFlight - 1 }).1 := rfl
  rw [hdef, if_neg h]
  exact onResolve_publishes T reload value _

/-- Witness for the amended C6 at a concrete unmounted state with one
in-flight invocation. -/
theorem resolve_always_publishes_witness :
    (hookStep (some 5)
        (runEvents (some 5) (initState Nat) [.mount, .unmount])
        (.resolve (okResult 42))).published = some (okResult 42) :=
  resolve_always_publishes Nat (some 5)
    (okResult 42) (runEvents (some 5) (initState Nat) [.mount, .unmount])
    (by decide)

/-- One automatic-path step on an err resolution: the value is published, a
retry timer due `R` later is scheduled and fires, re-invoking the producer
at instant `t + R`. -/
theorem runAuto_err_step (T : Type) (R : Nat) (hR : R ≠ 0) (e : JsErrorVal)
    (pub : Option (MethodResultObj T)) (inv : Nat) (times : List Nat)
    (nid t : Nat) (rest : List (MethodResultObj T)) :
    runAuto (some R) (cycleState T pub inv times nid t)
        (errResult T e :: rest)
      = runAuto (some R)
          (cycleState T (some (errResult T e)) (inv + 1) (times ++ [t + R])
            (nid + 1) (t + R)) rest := by
  have h1 : hookStep (some R) (cycleState T pub inv times nid t)
      (.resolve (errResult T e))
      = (⟨some (errResult T e), [⟨nid, t + R⟩], 0, none, true, inv, times,
          nid + 1, t⟩ : HookState T) := by
    simp [hookStep, cycleState, forReact_useMethodSignal_onResolve,
      signalWrite, setTimeoutFetch, reloadTruthy, errResult, hR]
  rw [show runAuto (some R) (cycleState T pub inv times nid t)
        (errResult T e :: rest)
      = runAuto (some R) (runAutoStep (some R) (hookStep (some R)
          (cycleState T pub inv times nid t)
          (.resolve (errResult T e)))) rest from rfl, h1]
  congr 1
  simp [runAutoStep, hookStep, fetch_run, cycleState, List.find?,
    max_eq_right (Nat.le_add_right t R)]

/-- One automatic-path step on an ok resolution: the value is published and
no retry timer is scheduled. -/
theorem runAuto_ok_step (T : Type) (R : Nat) (v : T)
    (pub : Option (MethodResultObj T)) (inv : Nat) (times : List Nat)
    (nid t : Nat) (rest : List (MethodResultObj T)) :
    runAuto (some R) (cycleState T pub inv times nid t) (okResult v :: rest)
      = runAuto (some R)
          (⟨some (okResult v), [], 0, none, true, inv, times, nid, t⟩ :
            HookState T) rest := by
  have h1 : hookStep (some R) (cycleState T pub inv times nid t)
      (.resolve (okResult v))
      = (⟨some (okResult v), [], 0, none, true, inv, times, nid, t⟩ :
          HookState T) := by
    simp [hookStep, cycleState, forReact_useMethodSignal_onResolve,
      signalWrite, reloadTruthy, okResult]
  rw [show runAuto (some R) (cycleState T pub inv times nid t)
        (okResult v :: rest)
      = runAuto (some R) (runAutoStep (some R) (hookStep (some R)
          (cycleState T pub inv times nid t)
          (.resolve (okResult v)))) rest from rfl, h1]
  rfl

/-- Driving a cycle state through `n` consecutive err resolutions performs
`n` retries, one per `R`-interval. -/
theorem runAuto_allErr (T : Type) (R : Nat) (hR : R ≠ 0) (e : JsErrorVal) :
    ∀ (n : Nat) (pub : Option (MethodResultObj T)) (inv : Nat)
      (times : List Nat) (nid t : Nat),
      runAuto (some R) (cycleState T pub inv times nid t)
          (List.replicate n (errResult T e))
        = cycleState T (if n = 0 then pub else some (errResult T e))
            (inv + n) (times ++ retrySchedule t R n) (nid + n)
            (t + n * R) := by
  intro n
  induction n with
  | zero => intro pub inv times nid t; simp [runAuto, retrySchedule]
  | succ n ih =>
      intro pub inv times nid t
      rw [List.replicate_succ, runAuto_err_step T R hR e, ih]
      simp [cycleState, retrySchedule, Nat.succ_ne_zero, ite_self,
        List.append_assoc, List.singleton_append, HookState.mk.injEq,
        Nat.succ_mul]
      omega

/-- The retry instants spelled out: starting from instant `t`, the `n`
retries occur at `t + R, t + 2R, ..., t + nR`. -/
theorem retrySchedule_eq_map (R : Nat) :
    ∀ (n t : Nat),
      retrySchedule t R n = (List.range n).map (fun k => t + (k + 1) * R) := by
  intro n
  induction n with
  | zero => intro t; simp [retrySchedule]
  | succ n ih =>
      intro t
      rw [retrySchedule, List.range_succ_eq_map, List.map_cons, List.map_map,
        ih]
      have hfun : ((fun k => t + (k + 1) * R) ∘ Nat.succ)
          = fun k => t + R + (k + 1) * R := by
        funext k
        simp [Function.comp]
        ring
      rw [hfun]
      congr 1
      ring

/-- C4: with `reload = R` configured, (i) an always-failing producer is
re-invoked once per `R` interval — after `n` err resolutions the producer
has run `n + 1` times, at instants `0, R, 2R, ..., nR`; (ii) a producer
that fails once and then succeeds is retried exactly once and the cycle
then rests settled-ok with no timer pending; (iii) a resolution schedules
a retry timer exactly when the result carries `err`, never after an ok
result. -/
theorem useMethodSignal_retry_schedule (R : Nat) (hR : R ≠ 0)
    (e : JsErrorVal) (v : Nat) (n : Nat) :
    ((runAuto (some R) (runEvents (some R) (initState Nat) [.mount])
        (List.replicate n (errResult Nat e))).invocations = n + 1 ∧
     (runAuto (some R) (runEvents (some R) (initState Nat) [.mount])
        (List.replicate n (errResult Nat e))).invocationTimes
       = (List.range (n + 1)).map (fun k => k * R)) ∧
    ((runAuto (some R) (runEvents (some R) (initState Nat) [.mount])
        [errResult Nat e, okResult v]).invocations = 2 ∧
     (runAuto (some R) (runEvents (some R) (initState Nat) [.mount])
        [errResult Nat e, okResult v]).timers = [] ∧
     (runAuto (some R) (runEvents (some R) (initState Nat) [.mount])
        [errResult Nat e, okResult v]).published = some (okResult v)) ∧
    (∀ (s : HookState Nat) (value : MethodResultObj Nat),
      (forReact_useMethodSignal_onResolve (some R) value s).1.timers
        = s.timers ++
            (if value.err.isSome then [⟨s.nextId, s.now + R⟩] else [])) := by
  have hmount : runEvents (some R) (initState Nat) [.mount]
      = cycleState Nat none 1 [0] 0 0 := rfl
  have hb : runAuto (some R) (runEvents (some R) (initState Nat) [.mount])
      [errResult Nat e, okResult v]
      = (⟨some (okResult v), [], 0, none, true, 1 + 1, [0] ++ [0 + R], 0 + 1,
          0 + R⟩ : HookState Nat) := by
    rw [hmount,
      show [errResult Nat e, okResult v]
        = errResult Nat e :: [okResult v] from rfl,
      runAuto_err_step Nat R hR e none 1 [0] 0 0 [okResult v],
      runAuto_ok_step Nat R v]
    rfl
  refine ⟨⟨?_, ?_⟩, ⟨?_, ?_, ?_⟩, ?_⟩
  · rw [hmount, runAuto_allErr Nat R hR e n none 1 [0] 0 0]
    simp [cycleState]
    omega
  · rw [hmount, runAuto_allErr Nat R hR e n none 1 [0] 0 0]
    simp only [cycleState]
    rw [retrySchedule_eq_map R n 0, List.range_succ_eq_map]
    simp [List.map_map, Function.comp, Nat.succ_eq_add_one]
  · rw [hb]
  · rw [hb]
  · rw [hb]
  · intro s value
    by_cases hv : value.err.isSome
    · simp [forReact_useMethodSignal_onResolve, signalWrite, setTimeoutFetch,
        reloadTruthy, hR, hv]
    · simp [forReact_useMethodSignal_onResolve, signalWrite, setTimeoutFetch,
        reloadTruthy, hR, hv]

/-- Witness for C4 at `R = 5`: three consecutive failures give four
invocations at instants 0, 5, 10, 15, and the fail-once-then-succeed
script settles on the ok value. -/
theorem useMethodSignal_retry_schedule_witness :
    (runAuto (some 5) (runEvents (some 5) (initState Nat) [.mount])
        (List.replicate 3 (errResult Nat .reprocaServerError))).invocationTimes
      = (List.range 4).map (fun k => k * 5) ∧
    (runAuto (some 5) (runEvents (some 5) (initState Nat) [.mount])
        [errResult Nat .reprocaServerError, okResult 42]).published
      = some (okResult 42) :=
  ⟨(useMethodSignal_retry_schedule 5 (by decide) .reprocaServerError 42
      3).1.2,
   (useMethodSignal_retry_schedule 5 (by decide) .reprocaServerError 42
      3).2.1.2.2⟩
